import Mathlib

/-!
# Status writer of the performance-profile controller

A shallow embedding of
`pkg/performanceprofile/controller/performanceprofile/status/writer.go`.

The Go methods of `writer` are translated to Lean functions that return an
`Outcome`: the `error` result together with the ordered trace of the calls
made to the collaborators (the three condition queries, the owning-pool
lookup, `Update` itself and the status-subresource write of the client).
Every collaborator is called at most once in one pass, so a collaborator is a
function of its arguments.
-/

namespace StatusWriter

/-! ## Data model -/

/-- Modelled from the spec: the `Type` of a condition; the type declaration
(`conditionsv1.ConditionType`) is not among the sources. The spec lists exactly
four kinds. -/
inductive ConditionType where
  | ConditionAvailable
  | ConditionUpgradeable
  | ConditionDegraded
  | ConditionProgressing
deriving DecidableEq, Repr

/-- Modelled from the spec: the `Status` of a condition
(`corev1.ConditionStatus`), one of True, False, Unknown. -/
inductive ConditionStatus where
  | ConditionTrue
  | ConditionFalse
  | ConditionUnknown
deriving DecidableEq, Repr

/-- Modelled from the spec: one condition,
`{Type, Status, Reason, Message, LastTransitionTime}`. The field `Type` is
spelled `Type_` because `Type` is reserved. Timestamps are natural numbers. -/
structure Condition where
  Type_ : ConditionType
  Status : ConditionStatus
  Reason : String
  Message : String
  LastTransitionTime : Nat
deriving DecidableEq, Repr

/-- Modelled from the spec: the resource status snapshot
`{Conditions, Tuned, RuntimeClass}`; `Tuned` and `RuntimeClass` are Go
`*string`, here `Option String`. -/
structure PerformanceProfileStatus where
  Conditions : List Condition
  Tuned : Option String
  RuntimeClass : Option String
deriving DecidableEq, Repr

/-- Modelled from the spec: the managed resource. `Name` is its object name,
`Spec` stands for everything of the object outside its status. -/
structure PerformanceProfile where
  Name : String
  Spec : String
  Status : PerformanceProfileStatus
deriving DecidableEq, Repr

/-- The owning MachineConfigPool, as returned by the owning-pool lookup. -/
structure MachineConfigPool where
  Name : String
deriving DecidableEq, Repr

/-- A non-nil Go `error`; `Error` is the text of its `Error()` method. -/
structure GoError where
  Error : String
deriving DecidableEq, Repr

/-- A `client.Object` handed to the writer: a `*PerformanceProfile`, or an
object of another Go type (named by its `%T` rendering). -/
inductive ClientObject where
  | performanceProfile (profile : PerformanceProfile)
  | other (goType : String)
deriving DecidableEq, Repr

/-- The names and constants of package `components` that `update` uses; they
are declared outside the sources and are taken as parameters. -/
structure Components where
  GetComponentName : String → String → String
  ProfileNamePerformance : String
  ComponentNamePrefix : String
  NamespaceNodeTuningOperator : String

/-- The writer with its client and the collaborators of one pass.
`GetKubeletConditionsByProfile`, `GetMachineConfigPoolByProfile`,
`GetMCPDegradedCondition` and `GetTunedConditionsByProfile` are the queries
called by `UpdateOwnedConditions` (a Go result `(v, err)` with `err != nil`
is `Except.error err`); `StatusUpdate` is `Client.Status().Update`, returning
`none` for a nil error; `Now` is the reading of `time.Now()`; the three
`ConditionFailedGetting...` strings are the failure tags of package `status`. -/
structure Writer where
  GetKubeletConditionsByProfile : String → Except GoError (Option (List Condition))
  GetMachineConfigPoolByProfile : PerformanceProfile → Except GoError MachineConfigPool
  GetMCPDegradedCondition : MachineConfigPool → Except GoError (Option (List Condition))
  GetTunedConditionsByProfile : PerformanceProfile → Except GoError (Option (List Condition))
  StatusUpdate : PerformanceProfile → Option GoError
  Now : Nat
  components : Components
  ConditionFailedGettingKubeletStatus : String
  ConditionFailedGettingMCPStatus : String
  ConditionFailedGettingTunedProfileStatus : String

/-- One call observed during a pass. -/
inductive Event where
  | kubeletQuery (profileName : String)
  | poolLookup (profile : PerformanceProfile)
  | poolDegradedQuery (pool : MachineConfigPool)
  | tunedQuery (profile : PerformanceProfile)
  | updateCall (object : ClientObject) (conditions : Option (List Condition))
  | statusWrite (object : PerformanceProfile)
deriving DecidableEq, Repr

/-- The result of a method of the writer: the returned `error` (`none` is
nil) and the calls it made, in order. -/
structure Outcome where
  err : Option GoError
  trace : List Event
deriving DecidableEq, Repr

/-- The same outcome with the calls `before` made first. -/
def Outcome.after (before : List Event) (o : Outcome) : Outcome :=
  { err := o.err, trace := before ++ o.trace }

/-! ## Helpers of other packages -/

/-- Modelled from the spec: `conditionsv1.FindStatusCondition`, which is not
among the sources: "look up the same Type in the previously persisted set";
the first condition of that type, `none` (nil) when there is none. -/
def FindStatusCondition : List Condition → ConditionType → Option Condition
  | [], _ => none
  | c :: rest, conditionType =>
    if c.Type_ = conditionType then some c else FindStatusCondition rest conditionType

/-- The method `types.NamespacedName.String`: namespace, separator, name. -/
def NamespacedNameString (namespace_ name : String) : String :=
  namespace_ ++ "/" ++ name

/-- Modelled from the spec: `GetAvailableConditions`, declared in package
`status` outside the sources: Available=True with the given message, the other
three conditions in their neutral state. -/
def GetAvailableConditions (now : Nat) (message : String) : List Condition :=
  [ { Type_ := .ConditionAvailable, Status := .ConditionTrue, Reason := "",
      Message := message, LastTransitionTime := now },
    { Type_ := .ConditionUpgradeable, Status := .ConditionTrue, Reason := "",
      Message := "", LastTransitionTime := now },
    { Type_ := .ConditionProgressing, Status := .ConditionFalse, Reason := "",
      Message := "", LastTransitionTime := now },
    { Type_ := .ConditionDegraded, Status := .ConditionFalse, Reason := "",
      Message := "", LastTransitionTime := now } ]

/-- Modelled from the spec: `GetDegradedConditions`, declared in package
`status` outside the sources: Degraded=True with the given tag as reason and
the given message, the other three conditions in their neutral state. -/
def GetDegradedConditions (now : Nat) (reason message : String) : List Condition :=
  [ { Type_ := .ConditionAvailable, Status := .ConditionFalse, Reason := "",
      Message := "", LastTransitionTime := now },
    { Type_ := .ConditionUpgradeable, Status := .ConditionFalse, Reason := "",
      Message := "", LastTransitionTime := now },
    { Type_ := .ConditionProgressing, Status := .ConditionFalse, Reason := "",
      Message := "", LastTransitionTime := now },
    { Type_ := .ConditionDegraded, Status := .ConditionTrue, Reason := reason,
      Message := message, LastTransitionTime := now } ]

/-! ## `writer.update` (writer.go, lines 85-134) -/

/-- The loop of lines 96-110: the value of `modified` after ranging over the
conditions of the copy, leaving at the first condition whose type is not
stored or whose Status, Reason or Message differs. Timestamps are not read. -/
def conditionsModified (old : List Condition) : List Condition → Bool
  | [] => false
  | newCondition :: rest =>
    match FindStatusCondition old newCondition.Type_ with
    | none => true
    | some oldCondition =>
      if oldCondition.Status ≠ newCondition.Status ∨
          oldCondition.Reason ≠ newCondition.Reason ∨
          oldCondition.Message ≠ newCondition.Message then true
      else conditionsModified old rest

/-- Lines 86-126 of `update`: the copy of the profile after the candidate
conditions and the two derived names were filled in, with the final value of
`modified`. -/
def updatePrepare (w : Writer) (profile : PerformanceProfile)
    (conditions : Option (List Condition)) : PerformanceProfile × Bool :=
  let profileCopy := profile
  let profileCopy : PerformanceProfile :=
    match conditions with
    | some c => { profileCopy with Status := { profileCopy.Status with Conditions := c } }
    | none => profileCopy
  let modified := conditionsModified profile.Status.Conditions profileCopy.Status.Conditions
  let step : PerformanceProfile × Bool :=
    match profileCopy.Status.Tuned with
    | none =>
      let tunedStatus := NamespacedNameString w.components.NamespaceNodeTuningOperator
        (w.components.GetComponentName profile.Name w.components.ProfileNamePerformance)
      ({ profileCopy with Status := { profileCopy.Status with Tuned := some tunedStatus } }, true)
    | some _ => (profileCopy, modified)
  match step.1.Status.RuntimeClass with
  | none =>
    let runtimeClassName :=
      w.components.GetComponentName profile.Name w.components.ComponentNamePrefix
    ({ step.1 with Status := { step.1.Status with RuntimeClass := some runtimeClassName } }, true)
  | some _ => step

/-- The method `writer.update`: no call at all when nothing was modified,
otherwise one status-subresource write of the copy, whose error is returned. -/
def update (w : Writer) (profile : PerformanceProfile)
    (conditions : Option (List Condition)) : Outcome :=
  let prepared := updatePrepare w profile conditions
  if !prepared.2 then { err := none, trace := [] }
  else { err := w.StatusUpdate prepared.1, trace := [Event.statusWrite prepared.1] }

/-! ## `writer.Update`, `writer.updateDegradedCondition`, `writer.UpdateOwnedConditions` -/

/-- The error of a failed type assertion (lines 31 and 39). -/
def wrongTypeError (goType : String) : GoError :=
  { Error := "wrong type conversion; want=*PerformanceProfile got=" ++ goType }

/-- The method `writer.Update` (lines 28-34). -/
def Update (w : Writer) (object : ClientObject) (conditions : Option (List Condition)) :
    Outcome :=
  match object with
  | .performanceProfile profile =>
    (update w profile conditions).after [Event.updateCall object conditions]
  | .other goType =>
    { err := some (wrongTypeError goType), trace := [Event.updateCall object conditions] }

/-- The method `writer.updateDegradedCondition` (lines 76-83). -/
def updateDegradedCondition (w : Writer) (instance_ : ClientObject) (conditionState : String)
    (conditionError : GoError) : Outcome :=
  let conditions := GetDegradedConditions w.Now conditionState conditionError.Error
  let updated := Update w instance_ (some conditions)
  match updated.err with
  | some err => { err := some err, trace := updated.trace }
  | none => { err := some conditionError, trace := updated.trace }

/-- Lines 69-73 of `UpdateOwnedConditions`: the Available default when no
source gave conditions, then `Update`. -/
def stageAvailable (w : Writer) (profile : PerformanceProfile)
    (conditions : Option (List Condition)) : Outcome :=
  let conditions : Option (List Condition) :=
    match conditions with
    | none => some (GetAvailableConditions w.Now "")
    | some c => some c
  Update w (.performanceProfile profile) conditions

/-- Lines 61-67 of `UpdateOwnedConditions`, followed by the rest. -/
def stageTuned (w : Writer) (profile : PerformanceProfile)
    (conditions : Option (List Condition)) : Outcome :=
  match conditions with
  | none =>
    match w.GetTunedConditionsByProfile profile with
    | .error err =>
      (updateDegradedCondition w (.performanceProfile profile)
        w.ConditionFailedGettingTunedProfileStatus err).after [Event.tunedQuery profile]
    | .ok conditions => (stageAvailable w profile conditions).after [Event.tunedQuery profile]
  | some c => stageAvailable w profile (some c)

/-- Lines 54-59 of `UpdateOwnedConditions`, followed by the rest. -/
def stagePool (w : Writer) (profile : PerformanceProfile) (profileMCP : MachineConfigPool)
    (conditions : Option (List Condition)) : Outcome :=
  match conditions with
  | none =>
    match w.GetMCPDegradedCondition profileMCP with
    | .error err =>
      (updateDegradedCondition w (.performanceProfile profile)
        w.ConditionFailedGettingMCPStatus err).after [Event.poolDegradedQuery profileMCP]
    | .ok conditions =>
      (stageTuned w profile conditions).after [Event.poolDegradedQuery profileMCP]
  | some c => stageTuned w profile (some c)

/-- The method `writer.UpdateOwnedConditions` (lines 36-74). -/
def UpdateOwnedConditions (w : Writer) (object : ClientObject) : Outcome :=
  match object with
  | .other goType => { err := some (wrongTypeError goType), trace := [] }
  | .performanceProfile profile =>
    match w.GetKubeletConditionsByProfile profile.Name with
    | .error err =>
      (updateDegradedCondition w (.performanceProfile profile)
        w.ConditionFailedGettingKubeletStatus err).after [Event.kubeletQuery profile.Name]
    | .ok conditions =>
      match w.GetMachineConfigPoolByProfile profile with
      | .error _ =>
        { err := none, trace := [Event.kubeletQuery profile.Name, Event.poolLookup profile] }
      | .ok profileMCP =>
        (stagePool w profile profileMCP conditions).after
          [Event.kubeletQuery profile.Name, Event.poolLookup profile]

/-! ## Vocabulary of the properties -/

/-- At most one condition per Type in a condition list. -/
def OnePerType (l : List Condition) : Prop :=
  (l.map Condition.Type_).Nodup

instance (l : List Condition) : Decidable (OnePerType l) := by
  unfold OnePerType; infer_instance

/-- Two conditions agree in Type, Status, Reason and Message; their
LastTransitionTime may differ. -/
def SameButTime (a b : Condition) : Prop :=
  a.Type_ = b.Type_ ∧ a.Status = b.Status ∧ a.Reason = b.Reason ∧ a.Message = b.Message

instance (a b : Condition) : Decidable (SameButTime a b) := by
  unfold SameButTime; infer_instance

/-- The objects handed to the status-subresource write during a pass, in order. -/
def statusWrites (o : Outcome) : List PerformanceProfile :=
  o.trace.filterMap fun e =>
    match e with
    | .statusWrite object => some object
    | _ => none

/-- The candidates handed to `Update` during a pass, in order. -/
def updateCalls (o : Outcome) : List (Option (List Condition)) :=
  o.trace.filterMap fun e =>
    match e with
    | .updateCall _ conditions => some conditions
    | _ => none

/-! ## Sample values for the concrete checks -/

/-- Sample naming conventions, after the scenario of the spec. -/
def sampleComponents : Components :=
  { GetComponentName := fun profileName pre => profileName ++ "-" ++ pre
    ProfileNamePerformance := "performance"
    ComponentNamePrefix := "runtime"
    NamespaceNodeTuningOperator := "openshift-tuning" }

/-- A writer all of whose sources are silent and whose writes succeed. -/
def quietWriter : Writer :=
  { GetKubeletConditionsByProfile := fun _ => .ok none
    GetMachineConfigPoolByProfile := fun _ => .ok { Name := "worker-cnf" }
    GetMCPDegradedCondition := fun _ => .ok none
    GetTunedConditionsByProfile := fun _ => .ok none
    StatusUpdate := fun _ => none
    Now := 7
    components := sampleComponents
    ConditionFailedGettingKubeletStatus := "GettingKubeletStatusFailed"
    ConditionFailedGettingMCPStatus := "GettingMCPStatusFailed"
    ConditionFailedGettingTunedProfileStatus := "GettingTunedStatusFailed" }

/-- A profile named `perf-a` with the given status. -/
def perfA (status : PerformanceProfileStatus) : PerformanceProfile :=
  { Name := "perf-a", Spec := "cpus", Status := status }

/-- A condition list holds exactly one condition of each of the four Types. -/
def OneOfEachType (l : List Condition) : Prop :=
  ∀ t : ConditionType, (l.filter fun c => decide (c.Type_ = t)).length = 1

/-- The name `update` gives to an unset `Status.Tuned`. -/
def defaultTuned (w : Writer) (profile : PerformanceProfile) : String :=
  w.components.NamespaceNodeTuningOperator ++ "/" ++
    w.components.GetComponentName profile.Name w.components.ProfileNamePerformance

/-- The name `update` gives to an unset `Status.RuntimeClass`. -/
def defaultRuntimeClass (w : Writer) (profile : PerformanceProfile) : String :=
  w.components.GetComponentName profile.Name w.components.ComponentNamePrefix

/-- Modelled from the spec: `PersistStatus`, the store behind
`Client.Status().Update`, which is not among the sources: a write that succeeds
replaces the stored status by the status of the written object and leaves the
rest of the stored object alone; a write that fails changes nothing. The
function gives the stored object after the calls of a trace. -/
def persistedAfter (w : Writer) (stored : PerformanceProfile) : List Event → PerformanceProfile
  | [] => stored
  | .statusWrite object :: rest =>
    match w.StatusUpdate object with
    | none => persistedAfter w { stored with Status := object.Status } rest
    | some _ => persistedAfter w stored rest
  | _ :: rest => persistedAfter w stored rest

/-- The three condition sources of `UpdateOwnedConditions`, in their order. -/
inductive Source where
  | kubelet
  | pool
  | tuned
deriving DecidableEq, Repr

/-- The failure tag `UpdateOwnedConditions` uses for a source. -/
def failureTag (w : Writer) : Source → String
  | .kubelet => w.ConditionFailedGettingKubeletStatus
  | .pool => w.ConditionFailedGettingMCPStatus
  | .tuned => w.ConditionFailedGettingTunedProfileStatus

/-- The event is a query of a source that comes after the given one. -/
def isLaterQuery : Source → Event → Bool
  | .kubelet, .poolDegradedQuery _ => true
  | .kubelet, .tunedQuery _ => true
  | .pool, .tunedQuery _ => true
  | _, _ => false

/-- The query of the source is reached in a pass on `profile` and returns the
error `e`: the sources before it returned nil conditions without error, and
for the pool and tuned queries the owning-pool lookup succeeded. -/
def failsAt (w : Writer) (profile : PerformanceProfile) (source : Source) (e : GoError) :
    Prop :=
  match source with
  | .kubelet => w.GetKubeletConditionsByProfile profile.Name = .error e
  | .pool =>
    w.GetKubeletConditionsByProfile profile.Name = .ok none ∧
      ∃ profileMCP, w.GetMachineConfigPoolByProfile profile = .ok profileMCP ∧
        w.GetMCPDegradedCondition profileMCP = .error e
  | .tuned =>
    w.GetKubeletConditionsByProfile profile.Name = .ok none ∧
      ∃ profileMCP, w.GetMachineConfigPoolByProfile profile = .ok profileMCP ∧
        w.GetMCPDegradedCondition profileMCP = .ok none ∧
        w.GetTunedConditionsByProfile profile = .error e

/-- A writer whose kubelet query reports a degraded condition set and whose
writes succeed. -/
def kubeletDegradedWriter : Writer :=
  { quietWriter with
    GetKubeletConditionsByProfile := fun _ =>
      .ok (some (GetDegradedConditions 3 "KubeletFailed" "kubelet is not ready")) }

/-- The same writer when the owning pool of the profile cannot be found. -/
def kubeletDegradedNoPoolWriter : Writer :=
  { kubeletDegradedWriter with
    GetMachineConfigPoolByProfile := fun _ => .error { Error := "no pool selects the profile" } }

/-- A writer whose sources are silent and whose owning-pool lookup fails. -/
def noPoolWriter : Writer :=
  { quietWriter with
    GetMachineConfigPoolByProfile := fun _ => .error { Error := "no pool selects the profile" } }

/-- A writer whose pool-degraded query fails and whose writes succeed. -/
def poolErrorWriter : Writer :=
  { quietWriter with
    GetMCPDegradedCondition := fun _ => .error { Error := "pool status unreadable" } }

/-- A writer whose pool-degraded query fails and whose writes fail too. -/
def poolErrorWriteFailsWriter : Writer :=
  { poolErrorWriter with
    StatusUpdate := fun _ => some { Error := "conflict on status update" } }

end StatusWriter

/-! # LLC alignment helpers of the functional tests

A shallow embedding of the helper functions of
`test/e2e/performanceprofile/functests/13_llc/llc.go`. -/

namespace LLC

/-- A `cpuset.CPUSet` (package `k8s.io/utils/cpuset`): a finite set of CPU
ids; `Size` is `Finset.card`, `IsSubsetOf` is `⊆`. -/
abbrev CPUSet := Finset Int

/-- A memory cache of a topology node as reported by `ghw`: its level and the
logical processors that share it (`uint32` values). -/
structure MemoryCache where
  Level : Nat
  LogicalProcessors : List Nat
deriving DecidableEq, Repr

/-- A node of `topology.Info`: its id and its caches. -/
structure TopologyNode where
  ID : Int
  Caches : List MemoryCache
deriving DecidableEq, Repr

/-- The struct `Machine` (lines 60-63); of its two fields only
`Topology.Nodes` is read by the functions below. -/
structure Machine where
  Nodes : List TopologyNode
deriving DecidableEq, Repr

/-- The struct `CacheInfo` (lines 65-69). -/
structure CacheInfo where
  NodeID : Int
  Level : Nat
  CPUs : CPUSet
deriving DecidableEq

/-- The struct `MachineData` (lines 71-74). -/
structure MachineData where
  Info : Machine
  Caches : List CacheInfo
deriving DecidableEq

/-- The function `cpusetFromLogicalProcessors` (lines 395-401). -/
def cpusetFromLogicalProcessors (procs : List Nat) : CPUSet :=
  (procs.map Int.ofNat).toFinset

/-- The function `isCPUSetLLCAligned` (lines 368-376): the first cache info
whose CPUs hold the whole cpuset, with `true`; `(false, nil)` when none does. -/
def isCPUSetLLCAligned : List CacheInfo → CPUSet → Bool × Option CacheInfo
  | [], _ => (false, none)
  | info :: rest, cpus =>
    if cpus ⊆ info.CPUs then (true, some info) else isCPUSetLLCAligned rest cpus

/-- The inner loop of `computeLLCLayout` (lines 381-390) over the caches of one
node: caches of a level below 3 are skipped, every other cache is kept. -/
def nodeLLCLayout (node : TopologyNode) : List MemoryCache → List CacheInfo
  | [] => []
  | cache :: rest =>
    if cache.Level < 3 then nodeLLCLayout node rest
    else
      { NodeID := node.ID, Level := cache.Level,
        CPUs := cpusetFromLogicalProcessors cache.LogicalProcessors } ::
        nodeLLCLayout node rest

/-- The outer loop of `computeLLCLayout` (line 380) over the nodes. -/
def nodesLLCLayout : List TopologyNode → List CacheInfo
  | [] => []
  | node :: rest => nodeLLCLayout node node.Caches ++ nodesLLCLayout rest

/-- The function `computeLLCLayout` (lines 378-393). -/
def computeLLCLayout (mi : Machine) : List CacheInfo :=
  nodesLLCLayout mi.Nodes

/-- The loop of `expectedL3GroupSize` over the caches: the size of the first
cache of level 3, and 0 when there is none. -/
def firstL3GroupSize : List CacheInfo → Nat
  | [] => 0
  | cache :: rest => if cache.Level ≠ 3 then firstL3GroupSize rest else cache.CPUs.card

/-- The function `expectedL3GroupSize` (lines 403-413). -/
def expectedL3GroupSize (md : MachineData) : Nat :=
  firstL3GroupSize md.Caches

/-- The machine data that `collectMachineDatas` builds for a machine (lines
430-433): the layout is precomputed by `computeLLCLayout`. -/
def machineDataOf (info : Machine) : MachineData :=
  { Info := info, Caches := computeLLCLayout info }

/-- All cache groups of level 3 have the same number of CPUs, the assumption
written on `expectedL3GroupSize`. -/
def EqualL3Groups (caches : List CacheInfo) : Prop :=
  ∀ a ∈ caches, ∀ b ∈ caches, a.Level = 3 → b.Level = 3 → a.CPUs.card = b.CPUs.card

/-- The logical processors `first`, ..., `first + count - 1`. -/
def processorRange (first count : Nat) : List Nat :=
  (List.range count).map fun i => first + i

/-- A machine of one node with two level-3 caches of ten CPUs each (CPUs 0-9
and 10-19) and one level-4 cache over the twenty CPUs. -/
def machineWithL4 : Machine :=
  { Nodes :=
      [ { ID := 0,
          Caches :=
            [ { Level := 2, LogicalProcessors := processorRange 0 2 },
              { Level := 3, LogicalProcessors := processorRange 0 10 },
              { Level := 3, LogicalProcessors := processorRange 10 10 },
              { Level := 4, LogicalProcessors := processorRange 0 20 } ] } ] }

/-- A machine of one node with two level-3 caches of ten CPUs each and no cache
of a higher level. -/
def machineWithL3Only : Machine :=
  { Nodes :=
      [ { ID := 0,
          Caches :=
            [ { Level := 2, LogicalProcessors := processorRange 0 2 },
              { Level := 3, LogicalProcessors := processorRange 0 10 },
              { Level := 3, LogicalProcessors := processorRange 10 10 } ] } ] }

/-- The cpuset of the twelve CPUs 0-11: two more than a level-3 group of the
machines above. -/
def twelveCPUs : CPUSet :=
  cpusetFromLogicalProcessors (processorRange 0 12)

end LLC

namespace StatusWriter

/-- A profile with both derived names set whose stored list holds two Degraded
conditions: the first with Status False, the second equal to the one of the
degraded set of a kubelet failure. -/
def twiceDegradedPerfA : PerformanceProfile :=
  perfA ⟨{ Type_ := .ConditionDegraded, Status := .ConditionFalse, Reason := "", Message := "",
           LastTransitionTime := 1 } ::
      GetDegradedConditions 1 "GettingKubeletStatusFailed" "kubelet unreachable",
    some "openshift-tuning/perf-a-performance", some "perf-a-runtime"⟩

/-- A profile whose stored conditions are the degraded set of an earlier
kubelet failure and whose derived names are set. -/
def degradedPerfA : PerformanceProfile :=
  perfA ⟨GetDegradedConditions 1 "GettingKubeletStatusFailed" "kubelet unreachable",
    some "openshift-tuning/perf-a-performance", some "perf-a-runtime"⟩

/-! ## Lemmas on the condition lookup and the comparison loop -/

theorem FindStatusCondition_of_mem {l : List Condition} (h : OnePerType l) {o : Condition}
    (ho : o ∈ l) : FindStatusCondition l o.Type_ = some o := by
  induction l with
  | nil => cases ho
  | cons a rest ih =>
    have hn : a.Type_ ∉ rest.map Condition.Type_ ∧ (rest.map Condition.Type_).Nodup := by
      simpa [OnePerType] using h
    rcases List.mem_cons.mp ho with rfl | hmem
    · simp [FindStatusCondition]
    · have hne : a.Type_ ≠ o.Type_ := by
        intro heq
        exact hn.1 (heq ▸ List.mem_map_of_mem Condition.Type_ hmem)
      simp [FindStatusCondition, hne, ih hn.2 hmem]

theorem conditionsModified_eq_false_iff (old new : List Condition) :
    conditionsModified old new = false ↔
      ∀ n ∈ new, ∃ o, FindStatusCondition old n.Type_ = some o ∧
        o.Status = n.Status ∧ o.Reason = n.Reason ∧ o.Message = n.Message := by
  induction new with
  | nil => simp [conditionsModified]
  | cons n rest ih =>
    simp only [conditionsModified, List.mem_cons, forall_eq_or_imp]
    cases hfind : FindStatusCondition old n.Type_ with
    | none => simp
    | some o =>
      by_cases hd : o.Status ≠ n.Status ∨ o.Reason ≠ n.Reason ∨ o.Message ≠ n.Message
      · simp only [hd, if_true]
        constructor
        · intro h; cases h
        · rintro ⟨⟨o2, ho2, h1, h2, h3⟩, _⟩
          cases ho2
          rcases hd with hd | hd | hd
          · exact absurd h1 hd
          · exact absurd h2 hd
          · exact absurd h3 hd
      · simp only [hd, if_false, ih]
        push_neg at hd
        constructor
        · intro h; exact ⟨⟨o, rfl, hd⟩, h⟩
        · intro h; exact h.2

theorem conditionsModified_of_same {old new : List Condition} (h : OnePerType old)
    (hsame : List.Forall₂ SameButTime old new) : conditionsModified old new = false := by
  rw [conditionsModified_eq_false_iff]
  intro n hn
  obtain ⟨o, ho, hs⟩ : ∃ o, o ∈ old ∧ SameButTime o n := by
    clear h
    induction hsame with
    | nil => cases hn
    | cons hab _ ih =>
      rcases List.mem_cons.mp hn with rfl | hmem
      · exact ⟨_, List.mem_cons_self _ _, hab⟩
      · obtain ⟨o, ho, hs⟩ := ih hmem
        exact ⟨o, List.mem_cons_of_mem _ ho, hs⟩
  refine ⟨o, ?_, hs.2.1, hs.2.2.1, hs.2.2.2⟩
  rw [← hs.1]
  exact FindStatusCondition_of_mem h ho

theorem SameButTime_map_type {a b : List Condition} (h : List.Forall₂ SameButTime a b) :
    a.map Condition.Type_ = b.map Condition.Type_ := by
  induction h with
  | nil => rfl
  | cons hab _ ih => simp [hab.1, ih]

theorem SameButTime_refl (l : List Condition) : List.Forall₂ SameButTime l l := by
  induction l with
  | nil => exact List.Forall₂.nil
  | cons a rest ih => exact List.Forall₂.cons ⟨rfl, rfl, rfl, rfl⟩ ih

/-- What `update` does, by the value of `modified`. -/
theorem update_eq (w : Writer) (p : PerformanceProfile) (c : Option (List Condition)) :
    update w p c =
      if (updatePrepare w p c).2 = true then
        { err := w.StatusUpdate (updatePrepare w p c).1,
          trace := [Event.statusWrite (updatePrepare w p c).1] }
      else { err := none, trace := [] } := by
  cases h : (updatePrepare w p c).2 <;> simp [update, h]

/-- The copy that `update` prepares. -/
theorem updatePrepare_fst (w : Writer) (p : PerformanceProfile) (c : Option (List Condition)) :
    (updatePrepare w p c).1 =
      { Name := p.Name, Spec := p.Spec,
        Status :=
          { Conditions := c.getD p.Status.Conditions,
            Tuned := some (p.Status.Tuned.getD (defaultTuned w p)),
            RuntimeClass := some (p.Status.RuntimeClass.getD (defaultRuntimeClass w p)) } } := by
  obtain ⟨name, spec, ⟨conds, tuned, runtimeClass⟩⟩ := p
  cases c <;> cases tuned <;> cases runtimeClass <;>
    simp [updatePrepare, defaultTuned, defaultRuntimeClass, NamespacedNameString]

/-- The value of `modified` that `update` computes. -/
theorem updatePrepare_snd (w : Writer) (p : PerformanceProfile) (c : Option (List Condition)) :
    (updatePrepare w p c).2 =
      (conditionsModified p.Status.Conditions (c.getD p.Status.Conditions) ||
        p.Status.Tuned.isNone || p.Status.RuntimeClass.isNone) := by
  obtain ⟨name, spec, ⟨conds, tuned, runtimeClass⟩⟩ := p
  cases c <;> cases tuned <;> cases runtimeClass <;> simp [updatePrepare]

/-- When `update` skips the write. -/
theorem update_skip {w : Writer} {p : PerformanceProfile} {c : Option (List Condition)}
    (h : (updatePrepare w p c).2 = false) : update w p c = { err := none, trace := [] } := by
  simp [update_eq, h]

/-- When `update` writes. -/
theorem update_write {w : Writer} {p : PerformanceProfile} {c : Option (List Condition)}
    (h : (updatePrepare w p c).2 = true) :
    update w p c =
      { err := w.StatusUpdate (updatePrepare w p c).1,
        trace := [Event.statusWrite (updatePrepare w p c).1] } := by
  simp [update_eq, h]

/-- The writes of `update`, by the value of `modified`. -/
theorem statusWrites_update (w : Writer) (p : PerformanceProfile) (c : Option (List Condition)) :
    statusWrites (update w p c) =
      if (updatePrepare w p c).2 = true then [(updatePrepare w p c).1] else [] := by
  rw [update_eq]
  split <;> simp [statusWrites]

/-- A profile whose derived names are set and whose stored conditions agree
with the candidate up to timestamps is not written. -/
theorem update_skip_of_same {w : Writer} {p : PerformanceProfile} {c : List Condition}
    (hone : OnePerType p.Status.Conditions)
    (hsame : List.Forall₂ SameButTime p.Status.Conditions c)
    (htuned : p.Status.Tuned ≠ none) (hruntime : p.Status.RuntimeClass ≠ none) :
    update w p (some c) = { err := none, trace := [] } := by
  apply update_skip
  rw [updatePrepare_snd]
  obtain ⟨t, ht⟩ := Option.ne_none_iff_exists'.mp htuned
  obtain ⟨r, hr⟩ := Option.ne_none_iff_exists'.mp hruntime
  simp [ht, hr, conditionsModified_of_same hone hsame]

theorem FindStatusCondition_some {l : List Condition} {t : ConditionType} {o : Condition}
    (h : FindStatusCondition l t = some o) : o ∈ l ∧ o.Type_ = t := by
  induction l with
  | nil => simp [FindStatusCondition] at h
  | cons a rest ih =>
    by_cases ha : a.Type_ = t
    · simp only [FindStatusCondition, ha, if_true, Option.some.injEq] at h
      subst h
      exact ⟨List.mem_cons_self _ _, ha⟩
    · simp only [FindStatusCondition, ha, if_false] at h
      exact ⟨List.mem_cons_of_mem _ (ih h).1, (ih h).2⟩

/-- The error and the calls of `Update` on a profile. -/
theorem Update_profile (w : Writer) (p : PerformanceProfile) (c : Option (List Condition)) :
    (Update w (.performanceProfile p) c).err = (update w p c).err ∧
      (Update w (.performanceProfile p) c).trace =
        Event.updateCall (.performanceProfile p) c :: (update w p c).trace := by
  simp [Update, Outcome.after]

/-- The error and the calls of `updateDegradedCondition`. -/
theorem updateDegradedCondition_eq (w : Writer) (object : ClientObject) (tag : String)
    (e : GoError) :
    (updateDegradedCondition w object tag e).err =
        some ((Update w object (some (GetDegradedConditions w.Now tag e.Error))).err.getD e) ∧
      (updateDegradedCondition w object tag e).trace =
        (Update w object (some (GetDegradedConditions w.Now tag e.Error))).trace := by
  unfold updateDegradedCondition
  cases h : (Update w object (some (GetDegradedConditions w.Now tag e.Error))).err <;>
    simp [h]

/-- The calls of `update`: at most the one write. -/
theorem mem_update_trace {w : Writer} {p : PerformanceProfile} {c : Option (List Condition)}
    {ev : Event} (h : ev ∈ (update w p c).trace) :
    ev = Event.statusWrite (updatePrepare w p c).1 := by
  rw [update_eq] at h
  split at h <;> simp at h
  exact h

/-- The calls of `Update` on a profile: the call itself, then at most one write. -/
theorem mem_Update_trace {w : Writer} {p : PerformanceProfile} {c : Option (List Condition)}
    {ev : Event} (h : ev ∈ (Update w (.performanceProfile p) c).trace) :
    ev = Event.updateCall (.performanceProfile p) c ∨
      ev = Event.statusWrite (updatePrepare w p c).1 := by
  rw [(Update_profile w p c).2] at h
  rcases List.mem_cons.mp h with h | h
  · exact Or.inl h
  · exact Or.inr (mem_update_trace h)

theorem updateCalls_update (w : Writer) (p : PerformanceProfile) (c : Option (List Condition)) :
    updateCalls (update w p c) = [] := by
  rw [update_eq]
  split <;> simp [updateCalls]

theorem updateCalls_Update (w : Writer) (p : PerformanceProfile) (c : Option (List Condition)) :
    updateCalls (Update w (.performanceProfile p) c) = [c] := by
  have h := updateCalls_update w p c
  simp only [updateCalls] at h
  simp [updateCalls, (Update_profile w p c).2, h]

theorem persistedAfter_Update (w : Writer) (p stored : PerformanceProfile)
    (c : Option (List Condition)) :
    persistedAfter w stored (Update w (.performanceProfile p) c).trace =
      persistedAfter w stored (update w p c).trace := by
  simp [(Update_profile w p c).2, persistedAfter]

/-- After an `Update` with a degraded condition set that returns nil, the stored
profile has Degraded=True with the tag as reason and the text as message. -/
theorem persistedAfter_degraded {w : Writer} {p : PerformanceProfile} {tag msg : String}
    (h : (update w p (some (GetDegradedConditions w.Now tag msg))).err = none) :
    ∃ d, FindStatusCondition
        (persistedAfter w p
          (update w p (some (GetDegradedConditions w.Now tag msg))).trace).Status.Conditions
        ConditionType.ConditionDegraded = some d ∧
      d.Status = ConditionStatus.ConditionTrue ∧ d.Reason = tag ∧ d.Message = msg := by
  rw [update_eq] at h ⊢
  split at h
  · rename_i hmod
    simp only at h
    simp only [hmod, if_true, persistedAfter, h]
    rw [updatePrepare_fst]
    exact ⟨Condition.mk .ConditionDegraded .ConditionTrue tag msg w.Now,
      by simp [FindStatusCondition, GetDegradedConditions], rfl, rfl, rfl⟩
  · rename_i hmod
    simp only [hmod, if_false, persistedAfter]
    rw [updatePrepare_snd] at hmod
    simp only [Option.getD_some, Bool.or_eq_true, not_or, Bool.not_eq_true] at hmod
    obtain ⟨o, hfind, h1, h2, h3⟩ :=
      (conditionsModified_eq_false_iff _ _).mp hmod.1.1
        { Type_ := .ConditionDegraded, Status := .ConditionTrue, Reason := tag,
          Message := msg, LastTransitionTime := w.Now }
        (by simp [GetDegradedConditions])
    exact ⟨o, hfind, h1, h2, h3⟩

/-! ### The branches of `UpdateOwnedConditions` -/

theorem UpdateOwnedConditions_kubelet_error {w : Writer} {p : PerformanceProfile} {e : GoError}
    (hk : w.GetKubeletConditionsByProfile p.Name = .error e) :
    UpdateOwnedConditions w (.performanceProfile p) =
      (updateDegradedCondition w (.performanceProfile p)
        w.ConditionFailedGettingKubeletStatus e).after [Event.kubeletQuery p.Name] := by
  simp [UpdateOwnedConditions, hk]

theorem UpdateOwnedConditions_pool_missing {w : Writer} {p : PerformanceProfile}
    {k : Option (List Condition)} {e : GoError}
    (hk : w.GetKubeletConditionsByProfile p.Name = .ok k)
    (hp : w.GetMachineConfigPoolByProfile p = .error e) :
    UpdateOwnedConditions w (.performanceProfile p) =
      { err := none, trace := [Event.kubeletQuery p.Name, Event.poolLookup p] } := by
  simp [UpdateOwnedConditions, hk, hp]

theorem UpdateOwnedConditions_kubelet_some {w : Writer} {p : PerformanceProfile}
    {c : List Condition} {profileMCP : MachineConfigPool}
    (hk : w.GetKubeletConditionsByProfile p.Name = .ok (some c))
    (hp : w.GetMachineConfigPoolByProfile p = .ok profileMCP) :
    UpdateOwnedConditions w (.performanceProfile p) =
      (Update w (.performanceProfile p) (some c)).after
        [Event.kubeletQuery p.Name, Event.poolLookup p] := by
  simp [UpdateOwnedConditions, hk, hp, stagePool, stageTuned, stageAvailable]

theorem UpdateOwnedConditions_pool_error {w : Writer} {p : PerformanceProfile}
    {profileMCP : MachineConfigPool} {e : GoError}
    (hk : w.GetKubeletConditionsByProfile p.Name = .ok none)
    (hp : w.GetMachineConfigPoolByProfile p = .ok profileMCP)
    (hd : w.GetMCPDegradedCondition profileMCP = .error e) :
    UpdateOwnedConditions w (.performanceProfile p) =
      (updateDegradedCondition w (.performanceProfile p)
        w.ConditionFailedGettingMCPStatus e).after
        [Event.kubeletQuery p.Name, Event.poolLookup p, Event.poolDegradedQuery profileMCP] := by
  simp [UpdateOwnedConditions, hk, hp, hd, stagePool, Outcome.after]

theorem UpdateOwnedConditions_pool_some {w : Writer} {p : PerformanceProfile}
    {profileMCP : MachineConfigPool} {c : List Condition}
    (hk : w.GetKubeletConditionsByProfile p.Name = .ok none)
    (hp : w.GetMachineConfigPoolByProfile p = .ok profileMCP)
    (hd : w.GetMCPDegradedCondition profileMCP = .ok (some c)) :
    UpdateOwnedConditions w (.performanceProfile p) =
      (Update w (.performanceProfile p) (some c)).after
        [Event.kubeletQuery p.Name, Event.poolLookup p, Event.poolDegradedQuery profileMCP] := by
  simp [UpdateOwnedConditions, hk, hp, hd, stagePool, stageTuned, stageAvailable, Outcome.after]

theorem UpdateOwnedConditions_tuned_error {w : Writer} {p : PerformanceProfile}
    {profileMCP : MachineConfigPool} {e : GoError}
    (hk : w.GetKubeletConditionsByProfile p.Name = .ok none)
    (hp : w.GetMachineConfigPoolByProfile p = .ok profileMCP)
    (hd : w.GetMCPDegradedCondition profileMCP = .ok none)
    (ht : w.GetTunedConditionsByProfile p = .error e) :
    UpdateOwnedConditions w (.performanceProfile p) =
      (updateDegradedCondition w (.performanceProfile p)
        w.ConditionFailedGettingTunedProfileStatus e).after
        [Event.kubeletQuery p.Name, Event.poolLookup p, Event.poolDegradedQuery profileMCP,
          Event.tunedQuery p] := by
  simp [UpdateOwnedConditions, hk, hp, hd, ht, stagePool, stageTuned, Outcome.after]

theorem UpdateOwnedConditions_tuned_ok {w : Writer} {p : PerformanceProfile}
    {profileMCP : MachineConfigPool} {t : Option (List Condition)}
    (hk : w.GetKubeletConditionsByProfile p.Name = .ok none)
    (hp : w.GetMachineConfigPoolByProfile p = .ok profileMCP)
    (hd : w.GetMCPDegradedCondition profileMCP = .ok none)
    (ht : w.GetTunedConditionsByProfile p = .ok t) :
    UpdateOwnedConditions w (.performanceProfile p) =
      (Update w (.performanceProfile p)
        (some (t.getD (GetAvailableConditions w.Now "")))).after
        [Event.kubeletQuery p.Name, Event.poolLookup p, Event.poolDegradedQuery profileMCP,
          Event.tunedQuery p] := by
  cases t <;>
    simp [UpdateOwnedConditions, hk, hp, hd, ht, stagePool, stageTuned, stageAvailable,
      Outcome.after]

/-- A call made by `Update` after the calls `pre` is one of `pre`, the call of
`Update`, or a status write. -/
theorem mem_trace_after_Update {w : Writer} {p : PerformanceProfile}
    {c : Option (List Condition)} {pre : List Event} {ev : Event}
    (h : ev ∈ ((Update w (.performanceProfile p) c).after pre).trace) :
    ev ∈ pre ∨ (∃ o k, ev = Event.updateCall o k) ∨ ∃ o, ev = Event.statusWrite o := by
  simp only [Outcome.after, List.mem_append] at h
  rcases h with h | h
  · exact Or.inl h
  · rcases mem_Update_trace h with h | h
    · exact Or.inr (Or.inl ⟨_, _, h⟩)
    · exact Or.inr (Or.inr ⟨_, h⟩)

/-- The same for `updateDegradedCondition`. -/
theorem mem_trace_after_degraded {w : Writer} {p : PerformanceProfile} {tag : String}
    {e : GoError} {pre : List Event} {ev : Event}
    (h : ev ∈ ((updateDegradedCondition w (.performanceProfile p) tag e).after pre).trace) :
    ev ∈ pre ∨ (∃ o k, ev = Event.updateCall o k) ∨ ∃ o, ev = Event.statusWrite o := by
  apply mem_trace_after_Update (w := w) (p := p)
    (c := some (GetDegradedConditions w.Now tag e.Error))
  simpa [Outcome.after, (updateDegradedCondition_eq w (.performanceProfile p) tag e).2] using h

/-- The pool-degraded query is in the trace only after a silent kubelet query. -/
theorem poolDegradedQuery_mem {w : Writer} {p : PerformanceProfile} {pool : MachineConfigPool}
    (h : Event.poolDegradedQuery pool ∈
      (UpdateOwnedConditions w (.performanceProfile p)).trace) :
    w.GetKubeletConditionsByProfile p.Name = .ok none ∧
      w.GetMachineConfigPoolByProfile p = .ok pool := by
  cases hk : w.GetKubeletConditionsByProfile p.Name with
  | error e =>
    rw [UpdateOwnedConditions_kubelet_error hk] at h
    have := mem_trace_after_degraded h
    simp at this
  | ok k =>
    cases hp : w.GetMachineConfigPoolByProfile p with
    | error e =>
      rw [UpdateOwnedConditions_pool_missing hk hp] at h
      simp at h
    | ok profileMCP =>
      cases k with
      | some c =>
        rw [UpdateOwnedConditions_kubelet_some hk hp] at h
        have := mem_trace_after_Update h
        simp at this
      | none =>
        refine ⟨rfl, ?_⟩
        cases hd : w.GetMCPDegradedCondition profileMCP with
        | error e =>
          rw [UpdateOwnedConditions_pool_error hk hp hd] at h
          have := mem_trace_after_degraded h
          simp at this
          rw [this]
        | ok d =>
          cases d with
          | some c =>
            rw [UpdateOwnedConditions_pool_some hk hp hd] at h
            have := mem_trace_after_Update h
            simp at this
            rw [this]
          | none =>
            cases ht : w.GetTunedConditionsByProfile p with
            | error e =>
              rw [UpdateOwnedConditions_tuned_error hk hp hd ht] at h
              have := mem_trace_after_degraded h
              simp at this
              rw [this]
            | ok t =>
              rw [UpdateOwnedConditions_tuned_ok hk hp hd ht] at h
              have := mem_trace_after_Update h
              simp at this
              rw [this]

/-- The tuned query is in the trace only after a silent kubelet query, a found
owning pool and a silent pool-degraded query. -/
theorem tunedQuery_mem {w : Writer} {p q : PerformanceProfile}
    (h : Event.tunedQuery q ∈ (UpdateOwnedConditions w (.performanceProfile p)).trace) :
    w.GetKubeletConditionsByProfile p.Name = .ok none ∧
      ∃ profileMCP, w.GetMachineConfigPoolByProfile p = .ok profileMCP ∧
        w.GetMCPDegradedCondition profileMCP = .ok none := by
  cases hk : w.GetKubeletConditionsByProfile p.Name with
  | error e =>
    rw [UpdateOwnedConditions_kubelet_error hk] at h
    have := mem_trace_after_degraded h
    simp at this
  | ok k =>
    cases hp : w.GetMachineConfigPoolByProfile p with
    | error e =>
      rw [UpdateOwnedConditions_pool_missing hk hp] at h
      simp at h
    | ok profileMCP =>
      cases k with
      | some c =>
        rw [UpdateOwnedConditions_kubelet_some hk hp] at h
        have := mem_trace_after_Update h
        simp at this
      | none =>
        refine ⟨rfl, profileMCP, rfl, ?_⟩
        cases hd : w.GetMCPDegradedCondition profileMCP with
        | error e =>
          rw [UpdateOwnedConditions_pool_error hk hp hd] at h
          have := mem_trace_after_degraded h
          simp at this
        | ok d =>
          cases d with
          | some c =>
            rw [UpdateOwnedConditions_pool_some hk hp hd] at h
            have := mem_trace_after_Update h
            simp at this
          | none => rfl

theorem updateCalls_after (pre : List Event) (o : Outcome) :
    updateCalls (o.after pre) = updateCalls { err := none, trace := pre } ++ updateCalls o := by
  simp [updateCalls, Outcome.after, List.filterMap_append]

/-- Calls that are not writes leave the stored profile as it is. -/
theorem persistedAfter_append (w : Writer) (stored : PerformanceProfile) (pre rest : List Event)
    (hpre : ∀ ev ∈ pre, ∀ o, ev ≠ Event.statusWrite o) :
    persistedAfter w stored (pre ++ rest) = persistedAfter w stored rest := by
  induction pre with
  | nil => rfl
  | cons ev tail ih =>
    have htail : ∀ ev ∈ tail, ∀ o, ev ≠ Event.statusWrite o :=
      fun x hx => hpre x (List.mem_cons_of_mem _ hx)
    have hev := hpre ev (List.mem_cons_self _ _)
    cases ev with
    | statusWrite o => exact absurd rfl (hev o)
    | kubeletQuery n => simpa [persistedAfter] using ih htail
    | poolLookup q => simpa [persistedAfter] using ih htail
    | poolDegradedQuery q => simpa [persistedAfter] using ih htail
    | tunedQuery q => simpa [persistedAfter] using ih htail
    | updateCall o k => simpa [persistedAfter] using ih htail

/-- The report of a query error made after the queries `pre`: one call of
`Update`, with the degraded condition set; the error of that call or else the
query error; Degraded=True stored once `Update` returned nil. -/
theorem degraded_report_after (w : Writer) (p : PerformanceProfile) (tag : String)
    (e : GoError) (pre : List Event)
    (hpre : ∀ ev ∈ pre, (∀ o k, ev ≠ Event.updateCall o k) ∧ ∀ o, ev ≠ Event.statusWrite o) :
    updateCalls ((updateDegradedCondition w (.performanceProfile p) tag e).after pre) =
        [some (GetDegradedConditions w.Now tag e.Error)] ∧
      ((updateDegradedCondition w (.performanceProfile p) tag e).after pre).err =
        some ((Update w (.performanceProfile p)
          (some (GetDegradedConditions w.Now tag e.Error))).err.getD e) ∧
      ((Update w (.performanceProfile p)
          (some (GetDegradedConditions w.Now tag e.Error))).err = none →
        ∃ d, FindStatusCondition
            (persistedAfter w p
              ((updateDegradedCondition w (.performanceProfile p) tag e).after
                pre).trace).Status.Conditions
            ConditionType.ConditionDegraded = some d ∧
          d.Status = ConditionStatus.ConditionTrue ∧ d.Reason = tag ∧ d.Message = e.Error) := by
  have heq := updateDegradedCondition_eq w (.performanceProfile p) tag e
  refine ⟨?_, ?_, ?_⟩
  · rw [updateCalls_after]
    have h1 : updateCalls { err := none, trace := pre } = [] := by
      simp only [updateCalls, List.filterMap_eq_nil_iff]
      intro ev hev
      cases ev with
      | updateCall o k => exact absurd rfl ((hpre _ hev).1 o k)
      | _ => rfl
    have h2 : updateCalls (updateDegradedCondition w (.performanceProfile p) tag e) =
        [some (GetDegradedConditions w.Now tag e.Error)] := by
      have h := updateCalls_Update w p (some (GetDegradedConditions w.Now tag e.Error))
      simp only [updateCalls] at h ⊢
      rw [heq.2, h]
    rw [h1, h2]; rfl
  · simp [Outcome.after, heq.1]
  · intro hnone
    have hu : (update w p (some (GetDegradedConditions w.Now tag e.Error))).err = none := by
      rw [← (Update_profile w p _).1]; exact hnone
    have hpers := persistedAfter_degraded hu
    simp only [Outcome.after]
    rw [persistedAfter_append w p pre _ (fun ev hev => (hpre ev hev).2), heq.2,
      persistedAfter_Update]
    exact hpers

/-! ## The status update executor: claims C1, C2, C8, C9 -/

/-- C1, as stated, fails: a profile whose four stored conditions differ from
the candidate only in LastTransitionTime is still written when its
`Status.Tuned` and `Status.RuntimeClass` are unset. -/
theorem update_writes_timestamp_only_candidate_when_names_unset :
    OnePerType (perfA ⟨GetAvailableConditions 1 "", none, none⟩).Status.Conditions ∧
      List.Forall₂ SameButTime
        (perfA ⟨GetAvailableConditions 1 "", none, none⟩).Status.Conditions
        (GetAvailableConditions 2 "") ∧
      statusWrites (update quietWriter (perfA ⟨GetAvailableConditions 1 "", none, none⟩)
          (some (GetAvailableConditions 2 ""))) =
        [perfA ⟨GetAvailableConditions 2 "", some "openshift-tuning/perf-a-performance",
          some "perf-a-runtime"⟩] := by
  refine ⟨by decide, ?_, by decide⟩
  simp [perfA, GetAvailableConditions, SameButTime]

/-- C1, amended: for every profile whose stored conditions hold at most one
condition per Type and whose `Status.Tuned` and `Status.RuntimeClass` are both
set, and every candidate list equal to the stored list except for the
LastTransitionTime values, `update` performs no status write (it makes no call
at all) and returns nil. -/
theorem update_timestamp_insensitive (w : Writer) (p : PerformanceProfile)
    (c : List Condition) (hone : OnePerType p.Status.Conditions)
    (hsame : List.Forall₂ SameButTime p.Status.Conditions c)
    (htuned : p.Status.Tuned ≠ none) (hruntime : p.Status.RuntimeClass ≠ none) :
    statusWrites (update w p (some c)) = [] ∧ (update w p (some c)).trace = [] ∧
      (update w p (some c)).err = none := by
  rw [update_skip_of_same hone hsame htuned hruntime]
  simp [statusWrites]

/-- C1, amended, at a concrete profile: four stored conditions of time 1, both
names set, the candidate of time 2. -/
theorem update_timestamp_insensitive_witness :
    statusWrites (update quietWriter (perfA ⟨GetAvailableConditions 1 "", some "t", some "r"⟩)
        (some (GetAvailableConditions 2 ""))) = [] ∧
      (update quietWriter (perfA ⟨GetAvailableConditions 1 "", some "t", some "r"⟩)
        (some (GetAvailableConditions 2 ""))).trace = [] ∧
      (update quietWriter (perfA ⟨GetAvailableConditions 1 "", some "t", some "r"⟩)
        (some (GetAvailableConditions 2 ""))).err = none :=
  update_timestamp_insensitive quietWriter
    (perfA ⟨GetAvailableConditions 1 "", some "t", some "r"⟩) (GetAvailableConditions 2 "")
    (by decide) (by simp [perfA, GetAvailableConditions, SameButTime]) (by decide) (by decide)

/-- C2: if `update` on `p` with a non-nil candidate `c` holding at most one
condition per Type writes the object `written`, then `update` on `written` with
a candidate that agrees with `c` in Type, Status, Reason and Message of every
condition performs no write and returns nil; the two calls make one write. -/
theorem update_idempotent (w : Writer) (p written : PerformanceProfile)
    (c again : List Condition) (hone : OnePerType c)
    (hwrite : statusWrites (update w p (some c)) = [written])
    (hsame : List.Forall₂ SameButTime c again) :
    statusWrites (update w written (some again)) = [] ∧
      (update w written (some again)).err = none ∧
      (statusWrites (update w p (some c)) ++
        statusWrites (update w written (some again))).length = 1 := by
  have hobj : written = (updatePrepare w p (some c)).1 := by
    rw [statusWrites_update] at hwrite
    split at hwrite
    · simpa using hwrite.symm
    · simp at hwrite
  have hskip : update w written (some again) = { err := none, trace := [] } := by
    apply update_skip_of_same
    · rw [hobj, updatePrepare_fst]; simpa using hone
    · rw [hobj, updatePrepare_fst]; simpa using hsame
    · rw [hobj, updatePrepare_fst]; simp
    · rw [hobj, updatePrepare_fst]; simp
  rw [hwrite, hskip]
  simp [statusWrites]

/-- C2 at a concrete profile: `perf-a` without status, written with the
Available default of time 1, then updated with the default of time 2. -/
theorem update_idempotent_witness :
    statusWrites (update quietWriter
        (perfA ⟨GetAvailableConditions 1 "", some "openshift-tuning/perf-a-performance",
          some "perf-a-runtime"⟩) (some (GetAvailableConditions 2 ""))) = [] ∧
      (update quietWriter
        (perfA ⟨GetAvailableConditions 1 "", some "openshift-tuning/perf-a-performance",
          some "perf-a-runtime"⟩) (some (GetAvailableConditions 2 ""))).err = none ∧
      (statusWrites (update quietWriter (perfA ⟨[], none, none⟩)
          (some (GetAvailableConditions 1 ""))) ++
        statusWrites (update quietWriter
          (perfA ⟨GetAvailableConditions 1 "", some "openshift-tuning/perf-a-performance",
            some "perf-a-runtime"⟩) (some (GetAvailableConditions 2 "")))).length = 1 :=
  update_idempotent quietWriter (perfA ⟨[], none, none⟩)
    (perfA ⟨GetAvailableConditions 1 "", some "openshift-tuning/perf-a-performance",
      some "perf-a-runtime"⟩)
    (GetAvailableConditions 1 "") (GetAvailableConditions 2 "") (by decide) (by decide)
    (by simp [GetAvailableConditions, SameButTime])

/-- C8: when the stored list and a non-nil candidate both hold exactly one
condition of each of the four Types and `update` performs no write, then for
every Type the stored condition of that Type has the Status, Reason and
Message of the candidate's condition of that Type. -/
theorem update_skip_hides_no_change (w : Writer) (p : PerformanceProfile)
    (c : List Condition) (hstored : OneOfEachType p.Status.Conditions)
    (hcand : OneOfEachType c) (hskip : statusWrites (update w p (some c)) = []) :
    ∀ t : ConditionType, ∃ s n,
      (p.Status.Conditions.filter fun x => decide (x.Type_ = t)) = [s] ∧
      (c.filter fun x => decide (x.Type_ = t)) = [n] ∧
      s.Status = n.Status ∧ s.Reason = n.Reason ∧ s.Message = n.Message := by
  intro t
  obtain ⟨s, hs⟩ := List.length_eq_one.mp (hstored t)
  obtain ⟨n, hn⟩ := List.length_eq_one.mp (hcand t)
  refine ⟨s, n, hs, hn, ?_⟩
  have hmod : conditionsModified p.Status.Conditions c = false := by
    rw [statusWrites_update] at hskip
    split at hskip
    · simp at hskip
    · rename_i hfalse
      rw [updatePrepare_snd] at hfalse
      simp only [Option.getD_some, Bool.or_eq_true, not_or, Bool.not_eq_true] at hfalse
      exact hfalse.1.1
  have hnmem : n ∈ c ∧ n.Type_ = t := by
    have : n ∈ c.filter fun x => decide (x.Type_ = t) := by rw [hn]; simp
    simpa using this
  obtain ⟨o, hfind, h1, h2, h3⟩ :=
    (conditionsModified_eq_false_iff _ _).mp hmod n hnmem.1
  have ho := FindStatusCondition_some hfind
  have hos : o = s := by
    have : o ∈ p.Status.Conditions.filter fun x => decide (x.Type_ = t) := by
      simp [ho.1, ho.2, hnmem.2]
    rw [hs] at this
    simpa using this
  subst hos
  exact ⟨h1, h2, h3⟩

/-- C8 at a concrete profile: the four stored conditions of time 1, both names
set, and the candidate of time 2; no write, and the Degraded conditions agree. -/
theorem update_skip_hides_no_change_witness :
    ∃ s n,
      ((perfA ⟨GetAvailableConditions 1 "", some "t", some "r"⟩).Status.Conditions.filter
        fun x => decide (x.Type_ = ConditionType.ConditionDegraded)) = [s] ∧
      ((GetAvailableConditions 2 "").filter
        fun x => decide (x.Type_ = ConditionType.ConditionDegraded)) = [n] ∧
      s.Status = n.Status ∧ s.Reason = n.Reason ∧ s.Message = n.Message :=
  update_skip_hides_no_change quietWriter
    (perfA ⟨GetAvailableConditions 1 "", some "t", some "r"⟩) (GetAvailableConditions 2 "")
    (by intro t; cases t <;> decide) (by intro t; cases t <;> decide) (by decide)
    ConditionType.ConditionDegraded

/-- C9: every object `update` writes equals the input profile outside its
status; its conditions are the candidate when that is non-nil and the stored
ones otherwise; its `Status.Tuned` is the stored one when set and otherwise
`NamespaceNodeTuningOperator + "/" + GetComponentName(Name, ProfileNamePerformance)`;
its `Status.RuntimeClass` is the stored one when set and otherwise
`GetComponentName(Name, ComponentNamePrefix)`. A profile with an unset
`Status.Tuned` or `Status.RuntimeClass` is always written, and a set
`Status.Tuned` or `Status.RuntimeClass` is the same in the stored object after
the call. -/
theorem update_lazy_defaulting (w : Writer) (p : PerformanceProfile)
    (c : Option (List Condition)) :
    (∀ object ∈ statusWrites (update w p c),
        object.Name = p.Name ∧ object.Spec = p.Spec ∧
        object.Status.Conditions = (match c with
          | some candidate => candidate
          | none => p.Status.Conditions) ∧
        object.Status.Tuned = (match p.Status.Tuned with
          | some tuned => some tuned
          | none => some (w.components.NamespaceNodeTuningOperator ++ "/" ++
              w.components.GetComponentName p.Name w.components.ProfileNamePerformance)) ∧
        object.Status.RuntimeClass = (match p.Status.RuntimeClass with
          | some runtimeClass => some runtimeClass
          | none => some (w.components.GetComponentName p.Name
              w.components.ComponentNamePrefix))) ∧
      ((p.Status.Tuned = none ∨ p.Status.RuntimeClass = none) →
        ∃ object, statusWrites (update w p c) = [object]) ∧
      (∀ tuned, p.Status.Tuned = some tuned →
        (persistedAfter w p (update w p c).trace).Status.Tuned = some tuned) ∧
      (∀ runtimeClass, p.Status.RuntimeClass = some runtimeClass →
        (persistedAfter w p (update w p c).trace).Status.RuntimeClass = some runtimeClass) := by
  have hfst := updatePrepare_fst w p c
  have hsnd := updatePrepare_snd w p c
  refine ⟨?_, ?_, ?_, ?_⟩
  · intro object hobj
    rw [statusWrites_update] at hobj
    split at hobj
    · simp only [List.mem_singleton] at hobj
      subst hobj
      rw [hfst]
      refine ⟨rfl, rfl, ?_, ?_, ?_⟩
      · cases c <;> rfl
      · cases p.Status.Tuned <;> rfl
      · cases p.Status.RuntimeClass <;> rfl
    · simp at hobj
  · intro hunset
    have hmod : (updatePrepare w p c).2 = true := by
      rw [hsnd]
      rcases hunset with h | h <;> simp [h]
    exact ⟨_, by rw [statusWrites_update, if_pos hmod]⟩
  · intro tuned htuned
    rw [update_eq]
    split
    · simp only [persistedAfter]
      cases w.StatusUpdate (updatePrepare w p c).1 with
      | none => simp [persistedAfter, hfst, htuned]
      | some _ => simp [persistedAfter, htuned]
    · simp [persistedAfter, htuned]
  · intro runtimeClass hruntime
    rw [update_eq]
    split
    · simp only [persistedAfter]
      cases w.StatusUpdate (updatePrepare w p c).1 with
      | none => simp [persistedAfter, hfst, hruntime]
      | some _ => simp [persistedAfter, hruntime]
    · simp [persistedAfter, hruntime]

/-! ## The degraded-path reporter: claim C10 -/

/-- C10: for every profile, failure tag and cause error `e`,
`updateDegradedCondition` returns the error of its `Update` call when that
call fails and returns `e` when it succeeds; it never returns nil. -/
theorem updateDegradedCondition_result (w : Writer) (p : PerformanceProfile) (tag : String)
    (e : GoError) :
    (∀ writeError,
        (Update w (.performanceProfile p)
          (some (GetDegradedConditions w.Now tag e.Error))).err = some writeError →
        (updateDegradedCondition w (.performanceProfile p) tag e).err = some writeError) ∧
      ((Update w (.performanceProfile p)
          (some (GetDegradedConditions w.Now tag e.Error))).err = none →
        (updateDegradedCondition w (.performanceProfile p) tag e).err = some e) ∧
      (updateDegradedCondition w (.performanceProfile p) tag e).err ≠ none := by
  have h := (updateDegradedCondition_eq w (.performanceProfile p) tag e).1
  refine ⟨?_, ?_, ?_⟩
  · intro writeError hw
    rw [h, hw]; rfl
  · intro hnone
    rw [h, hnone]; rfl
  · rw [h]; simp

/-! ## The condition resolver: claims C3 to C7 -/

/-- C3: in every pass of `UpdateOwnedConditions`, the pool-degraded query is
called only when the kubelet query returned nil conditions without error, and
the tuned query only when the kubelet query and the pool-degraded query both
returned nil without error; when the kubelet query returns a non-nil list,
neither the pool-degraded nor the tuned query is called. -/
theorem waterfall_short_circuit (w : Writer) (p : PerformanceProfile) :
    (∀ pool, Event.poolDegradedQuery pool ∈
        (UpdateOwnedConditions w (.performanceProfile p)).trace →
        w.GetKubeletConditionsByProfile p.Name = .ok none) ∧
      (∀ q, Event.tunedQuery q ∈ (UpdateOwnedConditions w (.performanceProfile p)).trace →
        w.GetKubeletConditionsByProfile p.Name = .ok none ∧
        ∃ profileMCP, w.GetMachineConfigPoolByProfile p = .ok profileMCP ∧
          w.GetMCPDegradedCondition profileMCP = .ok none) ∧
      (∀ c, w.GetKubeletConditionsByProfile p.Name = .ok (some c) →
        ∀ ev ∈ (UpdateOwnedConditions w (.performanceProfile p)).trace,
          (∀ pool, ev ≠ Event.poolDegradedQuery pool) ∧ ∀ q, ev ≠ Event.tunedQuery q) := by
  refine ⟨fun pool h => (poolDegradedQuery_mem h).1, fun q h => tunedQuery_mem h, ?_⟩
  intro c hc ev hev
  constructor
  · rintro pool rfl
    have h := (poolDegradedQuery_mem hev).1
    rw [hc] at h
    cases h
  · rintro q rfl
    have h := (tunedQuery_mem hev).1
    rw [hc] at h
    cases h

/-- C4, as stated, fails: the kubelet query returns a non-nil condition list
without error, the owning-pool lookup fails, and `UpdateOwnedConditions` returns
nil without calling `Update` and without a write. -/
theorem kubelet_conditions_dropped_when_pool_missing :
    kubeletDegradedNoPoolWriter.GetKubeletConditionsByProfile
        (perfA ⟨[], none, none⟩).Name =
        .ok (some (GetDegradedConditions 3 "KubeletFailed" "kubelet is not ready")) ∧
      updateCalls (UpdateOwnedConditions kubeletDegradedNoPoolWriter
        (.performanceProfile (perfA ⟨[], none, none⟩))) = [] ∧
      statusWrites (UpdateOwnedConditions kubeletDegradedNoPoolWriter
        (.performanceProfile (perfA ⟨[], none, none⟩))) = [] ∧
      (UpdateOwnedConditions kubeletDegradedNoPoolWriter
        (.performanceProfile (perfA ⟨[], none, none⟩))).err = none := by
  refine ⟨rfl, by decide, by decide, by decide⟩

/-- C4, amended: in every pass in which the kubelet query returns a non-nil
condition list without error and the owning-pool lookup succeeds, that list is
the final condition set: `UpdateOwnedConditions` calls `Update` once, with
exactly that list, after the kubelet query and the pool lookup and nothing
else, and returns the result of that call. -/
theorem kubelet_conditions_final (w : Writer) (p : PerformanceProfile) (c : List Condition)
    (profileMCP : MachineConfigPool)
    (hk : w.GetKubeletConditionsByProfile p.Name = .ok (some c))
    (hp : w.GetMachineConfigPoolByProfile p = .ok profileMCP) :
    updateCalls (UpdateOwnedConditions w (.performanceProfile p)) = [some c] ∧
      (UpdateOwnedConditions w (.performanceProfile p)).err =
        (Update w (.performanceProfile p) (some c)).err ∧
      (UpdateOwnedConditions w (.performanceProfile p)).trace =
        [Event.kubeletQuery p.Name, Event.poolLookup p] ++
          (Update w (.performanceProfile p) (some c)).trace := by
  rw [UpdateOwnedConditions_kubelet_some hk hp]
  have h := updateCalls_Update w p (some c)
  simp only [updateCalls] at h
  simp [Outcome.after, updateCalls, List.filterMap_cons, h]

/-- C4, amended, at a concrete writer whose kubelet query reports a degraded
condition set and whose owning-pool lookup succeeds. -/
theorem kubelet_conditions_final_witness :
    updateCalls (UpdateOwnedConditions kubeletDegradedWriter
        (.performanceProfile (perfA ⟨[], none, none⟩))) =
        [some (GetDegradedConditions 3 "KubeletFailed" "kubelet is not ready")] ∧
      (UpdateOwnedConditions kubeletDegradedWriter
        (.performanceProfile (perfA ⟨[], none, none⟩))).err =
        (Update kubeletDegradedWriter (.performanceProfile (perfA ⟨[], none, none⟩))
          (some (GetDegradedConditions 3 "KubeletFailed" "kubelet is not ready"))).err ∧
      (UpdateOwnedConditions kubeletDegradedWriter
        (.performanceProfile (perfA ⟨[], none, none⟩))).trace =
        [Event.kubeletQuery (perfA ⟨[], none, none⟩).Name,
          Event.poolLookup (perfA ⟨[], none, none⟩)] ++
          (Update kubeletDegradedWriter (.performanceProfile (perfA ⟨[], none, none⟩))
            (some (GetDegradedConditions 3 "KubeletFailed" "kubelet is not ready"))).trace :=
  kubelet_conditions_final kubeletDegradedWriter (perfA ⟨[], none, none⟩)
    (GetDegradedConditions 3 "KubeletFailed" "kubelet is not ready") { Name := "worker-cnf" }
    rfl rfl

/-- C5, as stated, fails: the pool-degraded query is reached and returns the
error `pool status unreadable`, the status write fails with another error, and
`UpdateOwnedConditions` returns the error of the write, not the error of the
query; the stored profile is left without a Degraded condition. -/
theorem query_error_replaced_by_write_error :
    failsAt poolErrorWriteFailsWriter (perfA ⟨[], none, none⟩) Source.pool
        { Error := "pool status unreadable" } ∧
      (UpdateOwnedConditions poolErrorWriteFailsWriter
        (.performanceProfile (perfA ⟨[], none, none⟩))).err =
        some { Error := "conflict on status update" } ∧
      (UpdateOwnedConditions poolErrorWriteFailsWriter
        (.performanceProfile (perfA ⟨[], none, none⟩))).err ≠
        some { Error := "pool status unreadable" } ∧
      FindStatusCondition
        (persistedAfter poolErrorWriteFailsWriter (perfA ⟨[], none, none⟩)
          (UpdateOwnedConditions poolErrorWriteFailsWriter
            (.performanceProfile (perfA ⟨[], none, none⟩))).trace).Status.Conditions
        ConditionType.ConditionDegraded = none := by
  refine ⟨⟨rfl, _, rfl, rfl⟩, by decide, by decide, by decide⟩

/-- C5, amended: whenever one of the three source queries is reached in
`UpdateOwnedConditions` and returns an error `e`, `Update` is called once, with
`GetDegradedConditions(tag, e.Error())` for the tag of that source, and no later
source query is called; `UpdateOwnedConditions` returns a non-nil error, which
is `e` when that `Update` call returns nil and the error of `Update` otherwise;
when the `Update` call returns nil the stored profile has Degraded=True with
that tag as Reason and the text of `e` as Message. -/
theorem query_error_dual_reporting (w : Writer) (p : PerformanceProfile) (source : Source)
    (e : GoError) (h : failsAt w p source e) :
    updateCalls (UpdateOwnedConditions w (.performanceProfile p)) =
        [some (GetDegradedConditions w.Now (failureTag w source) e.Error)] ∧
      (UpdateOwnedConditions w (.performanceProfile p)).err =
        some ((Update w (.performanceProfile p)
          (some (GetDegradedConditions w.Now (failureTag w source) e.Error))).err.getD e) ∧
      (∀ ev ∈ (UpdateOwnedConditions w (.performanceProfile p)).trace,
        isLaterQuery source ev = false) ∧
      ((Update w (.performanceProfile p)
          (some (GetDegradedConditions w.Now (failureTag w source) e.Error))).err = none →
        (UpdateOwnedConditions w (.performanceProfile p)).err = some e ∧
        ∃ d, FindStatusCondition
            (persistedAfter w p
              (UpdateOwnedConditions w (.performanceProfile p)).trace).Status.Conditions
            ConditionType.ConditionDegraded = some d ∧
          d.Status = ConditionStatus.ConditionTrue ∧ d.Reason = failureTag w source ∧
          d.Message = e.Error) := by
  have hlater : ∀ (pre : List Event) (tag : String),
      (∀ ev ∈ pre, isLaterQuery source ev = false) →
      ∀ ev ∈ ((updateDegradedCondition w (.performanceProfile p) tag e).after pre).trace,
        isLaterQuery source ev = false := by
    intro pre tag hpre ev hev
    rcases mem_trace_after_degraded hev with h1 | ⟨o, k, rfl⟩ | ⟨o, rfl⟩
    · exact hpre ev h1
    · cases source <;> rfl
    · cases source <;> rfl
  cases source with
  | kubelet =>
    have hk : w.GetKubeletConditionsByProfile p.Name = .error e := h
    obtain ⟨h1, h2, h3⟩ := degraded_report_after w p (failureTag w .kubelet) e
      [Event.kubeletQuery p.Name] (by simp)
    have hl := hlater [Event.kubeletQuery p.Name] (failureTag w .kubelet)
      (by simp [isLaterQuery])
    rw [UpdateOwnedConditions_kubelet_error hk]
    refine ⟨h1, h2, hl, fun hnone => ⟨?_, h3 hnone⟩⟩
    exact h2.trans (by rw [hnone]; rfl)
  | pool =>
    obtain ⟨hk, profileMCP, hp, hd⟩ := h
    obtain ⟨h1, h2, h3⟩ := degraded_report_after w p (failureTag w .pool) e
      [Event.kubeletQuery p.Name, Event.poolLookup p, Event.poolDegradedQuery profileMCP]
      (by simp)
    have hl := hlater
      [Event.kubeletQuery p.Name, Event.poolLookup p, Event.poolDegradedQuery profileMCP]
      (failureTag w .pool) (by simp [isLaterQuery])
    rw [UpdateOwnedConditions_pool_error hk hp hd]
    refine ⟨h1, h2, hl, fun hnone => ⟨?_, h3 hnone⟩⟩
    exact h2.trans (by rw [hnone]; rfl)
  | tuned =>
    obtain ⟨hk, profileMCP, hp, hd, ht⟩ := h
    obtain ⟨h1, h2, h3⟩ := degraded_report_after w p (failureTag w .tuned) e
      [Event.kubeletQuery p.Name, Event.poolLookup p, Event.poolDegradedQuery profileMCP,
        Event.tunedQuery p] (by simp)
    have hl := hlater
      [Event.kubeletQuery p.Name, Event.poolLookup p, Event.poolDegradedQuery profileMCP,
        Event.tunedQuery p] (failureTag w .tuned) (by simp [isLaterQuery])
    rw [UpdateOwnedConditions_tuned_error hk hp hd ht]
    refine ⟨h1, h2, hl, fun hnone => ⟨?_, h3 hnone⟩⟩
    exact h2.trans (by rw [hnone]; rfl)

/-- C5, amended, at a concrete writer whose pool-degraded query fails and whose
write succeeds: `Update` receives the degraded set with the pool tag. -/
theorem query_error_dual_reporting_witness :
    failsAt poolErrorWriter (perfA ⟨[], none, none⟩) Source.pool
        { Error := "pool status unreadable" } ∧
      updateCalls (UpdateOwnedConditions poolErrorWriter
        (.performanceProfile (perfA ⟨[], none, none⟩))) =
        [some (GetDegradedConditions poolErrorWriter.Now
          (failureTag poolErrorWriter Source.pool)
          (GoError.mk "pool status unreadable").Error)] :=
  ⟨⟨rfl, _, rfl, rfl⟩,
    (query_error_dual_reporting poolErrorWriter (perfA ⟨[], none, none⟩) Source.pool
      { Error := "pool status unreadable" } ⟨rfl, _, rfl, rfl⟩).1⟩

/-- C6: in every pass of `UpdateOwnedConditions` that looks up the owning pool
and in which that lookup fails, `UpdateOwnedConditions` returns nil, never calls
`Update`, performs no status write, calls neither the pool-degraded nor the
tuned query, and leaves the stored profile as it was. -/
theorem pool_missing_silence (w : Writer) (p : PerformanceProfile) (e : GoError)
    (hreached : Event.poolLookup p ∈ (UpdateOwnedConditions w (.performanceProfile p)).trace)
    (hfails : w.GetMachineConfigPoolByProfile p = .error e) :
    (UpdateOwnedConditions w (.performanceProfile p)).err = none ∧
      updateCalls (UpdateOwnedConditions w (.performanceProfile p)) = [] ∧
      statusWrites (UpdateOwnedConditions w (.performanceProfile p)) = [] ∧
      (∀ ev ∈ (UpdateOwnedConditions w (.performanceProfile p)).trace,
        (∀ pool, ev ≠ Event.poolDegradedQuery pool) ∧ ∀ q, ev ≠ Event.tunedQuery q) ∧
      persistedAfter w p (UpdateOwnedConditions w (.performanceProfile p)).trace = p := by
  cases hk : w.GetKubeletConditionsByProfile p.Name with
  | error e2 =>
    rw [UpdateOwnedConditions_kubelet_error hk] at hreached
    have := mem_trace_after_degraded hreached
    simp at this
  | ok k =>
    rw [UpdateOwnedConditions_pool_missing hk hfails]
    simp [updateCalls, statusWrites, persistedAfter]

/-- C6 at a concrete writer whose sources are silent and whose owning-pool
lookup fails, on a profile that has a stored status. -/
theorem pool_missing_silence_witness :
    (UpdateOwnedConditions noPoolWriter
        (.performanceProfile (perfA ⟨GetAvailableConditions 1 "", some "t", none⟩))).err = none ∧
      updateCalls (UpdateOwnedConditions noPoolWriter
        (.performanceProfile (perfA ⟨GetAvailableConditions 1 "", some "t", none⟩))) = [] ∧
      statusWrites (UpdateOwnedConditions noPoolWriter
        (.performanceProfile (perfA ⟨GetAvailableConditions 1 "", some "t", none⟩))) = [] :=
  have h := pool_missing_silence noPoolWriter
    (perfA ⟨GetAvailableConditions 1 "", some "t", none⟩)
    { Error := "no pool selects the profile" } (by decide) rfl
  ⟨h.1, h.2.1, h.2.2.1⟩

/-- C7: in every pass in which the kubelet, pool-degraded and tuned queries all
return nil conditions without error and the owning-pool lookup succeeds,
`Update` is called exactly once, with `GetAvailableConditions("")`, and
`UpdateOwnedConditions` returns the result of that call. -/
theorem fallback_to_available (w : Writer) (p : PerformanceProfile)
    (profileMCP : MachineConfigPool)
    (hk : w.GetKubeletConditionsByProfile p.Name = .ok none)
    (hp : w.GetMachineConfigPoolByProfile p = .ok profileMCP)
    (hd : w.GetMCPDegradedCondition profileMCP = .ok none)
    (ht : w.GetTunedConditionsByProfile p = .ok none) :
    updateCalls (UpdateOwnedConditions w (.performanceProfile p)) =
        [some (GetAvailableConditions w.Now "")] ∧
      (UpdateOwnedConditions w (.performanceProfile p)).err =
        (Update w (.performanceProfile p) (some (GetAvailableConditions w.Now ""))).err := by
  rw [UpdateOwnedConditions_tuned_ok hk hp hd ht, updateCalls_after]
  have h := updateCalls_Update w p (some (GetAvailableConditions w.Now ""))
  simp only [Option.getD_none]
  rw [h]
  simp [updateCalls, Outcome.after]

/-- C7 at the scenario of the spec: `perf-a` without status, all sources
silent. -/
theorem fallback_to_available_witness :
    updateCalls (UpdateOwnedConditions quietWriter
        (.performanceProfile (perfA ⟨[], none, none⟩))) =
        [some (GetAvailableConditions quietWriter.Now "")] ∧
      (UpdateOwnedConditions quietWriter (.performanceProfile (perfA ⟨[], none, none⟩))).err =
        (Update quietWriter (.performanceProfile (perfA ⟨[], none, none⟩))
          (some (GetAvailableConditions quietWriter.Now ""))).err :=
  fallback_to_available quietWriter (perfA ⟨[], none, none⟩) { Name := "worker-cnf" }
    rfl rfl rfl rfl

/-! ## The write attempts of the degraded-path reporter: claim C11 -/

/-- The writes of `updateDegradedCondition` are those of the `update` it
reaches through `Update`. -/
theorem statusWrites_updateDegradedCondition (w : Writer) (p : PerformanceProfile)
    (tag : String) (e : GoError) :
    statusWrites (updateDegradedCondition w (.performanceProfile p) tag e) =
      statusWrites (update w p (some (GetDegradedConditions w.Now tag e.Error))) := by
  simp [statusWrites, (updateDegradedCondition_eq w (.performanceProfile p) tag e).2,
    (Update_profile w p _).2]

/-- C11, as stated, fails: on a profile that already stores the degraded
conditions of the same failure and has both derived names set,
`updateDegradedCondition` calls `Update` and makes no status write attempt. -/
theorem degraded_report_without_write_attempt :
    statusWrites (updateDegradedCondition quietWriter (.performanceProfile degradedPerfA)
        "GettingKubeletStatusFailed" { Error := "kubelet unreachable" }) = [] ∧
      (updateDegradedCondition quietWriter (.performanceProfile degradedPerfA)
        "GettingKubeletStatusFailed" { Error := "kubelet unreachable" }).trace =
        [Event.updateCall (.performanceProfile degradedPerfA)
          (some (GetDegradedConditions 7 "GettingKubeletStatusFailed" "kubelet unreachable"))] ∧
      (updateDegradedCondition quietWriter (.performanceProfile degradedPerfA)
        "GettingKubeletStatusFailed" { Error := "kubelet unreachable" }).err =
        some { Error := "kubelet unreachable" } := by
  refine ⟨by decide, by decide, by decide⟩

/-- The lookup of `update` reads the first stored condition of a Type: on a
stored list with two Degraded conditions of which only the second agrees with
the degraded set, `updateDegradedCondition` makes one write attempt. -/
theorem degraded_report_writes_on_first_mismatch :
    (statusWrites (updateDegradedCondition quietWriter (.performanceProfile twiceDegradedPerfA)
        "GettingKubeletStatusFailed" { Error := "kubelet unreachable" })).length = 1 := by
  decide

/-- C11, amended: for every profile, failure tag and cause error, one
invocation of `updateDegradedCondition` calls `Update` exactly once and makes at
most one status write attempt: none when both derived names of the profile are
set and, for every condition of the degraded set, the first stored condition of
its Type (the one `FindStatusCondition` returns) exists and has the same Status,
Reason and Message; and exactly one otherwise. -/
theorem degraded_report_write_attempts (w : Writer) (p : PerformanceProfile) (tag : String)
    (e : GoError) :
    updateCalls (updateDegradedCondition w (.performanceProfile p) tag e) =
        [some (GetDegradedConditions w.Now tag e.Error)] ∧
      (statusWrites (updateDegradedCondition w (.performanceProfile p) tag e)).length ≤ 1 ∧
      ((statusWrites (updateDegradedCondition w (.performanceProfile p) tag e)).length = 0 ↔
        (p.Status.Tuned ≠ none ∧ p.Status.RuntimeClass ≠ none ∧
          ∀ n ∈ GetDegradedConditions w.Now tag e.Error,
            ∃ o, FindStatusCondition p.Status.Conditions n.Type_ = some o ∧
              o.Status = n.Status ∧ o.Reason = n.Reason ∧ o.Message = n.Message)) ∧
      ((statusWrites (updateDegradedCondition w (.performanceProfile p) tag e)).length = 1 ↔
        ¬ (p.Status.Tuned ≠ none ∧ p.Status.RuntimeClass ≠ none ∧
          ∀ n ∈ GetDegradedConditions w.Now tag e.Error,
            ∃ o, FindStatusCondition p.Status.Conditions n.Type_ = some o ∧
              o.Status = n.Status ∧ o.Reason = n.Reason ∧ o.Message = n.Message)) := by
  have hcalls := (degraded_report_after w p tag e [] (by simp)).1
  have hafter : (updateDegradedCondition w (.performanceProfile p) tag e).after [] =
      updateDegradedCondition w (.performanceProfile p) tag e := by
    simp [Outcome.after]
  rw [hafter] at hcalls
  refine ⟨hcalls, ?_, ?_, ?_⟩
  · rw [statusWrites_updateDegradedCondition, statusWrites_update]
    split <;> simp
  · rw [statusWrites_updateDegradedCondition, statusWrites_update, updatePrepare_snd,
      ← conditionsModified_eq_false_iff]
    cases hm : conditionsModified p.Status.Conditions
        (GetDegradedConditions w.Now tag e.Error) <;>
      cases ht : p.Status.Tuned <;> cases hr : p.Status.RuntimeClass <;> simp [hm]
  · rw [statusWrites_updateDegradedCondition, statusWrites_update, updatePrepare_snd,
      ← conditionsModified_eq_false_iff]
    cases hm : conditionsModified p.Status.Conditions
        (GetDegradedConditions w.Now tag e.Error) <;>
      cases ht : p.Status.Tuned <;> cases hr : p.Status.RuntimeClass <;> simp [hm]

/-! ## Conditions that the candidate omits: claim C13 -/

/-- C13: for every profile with `Status.Tuned` and `Status.RuntimeClass` set
and every non-nil candidate each of whose conditions agrees in Status, Reason
and Message with the first stored condition of its Type, `update` performs no
write and returns nil, and the stored profile stays as it was; when the
candidate lacks a Type that the stored list has, the stored condition list then
differs from the candidate. -/
theorem update_keeps_omitted_conditions (w : Writer) (p : PerformanceProfile)
    (c : List Condition) (htuned : p.Status.Tuned ≠ none)
    (hruntime : p.Status.RuntimeClass ≠ none)
    (hagree : ∀ n ∈ c, ∃ o, FindStatusCondition p.Status.Conditions n.Type_ = some o ∧
      o.Status = n.Status ∧ o.Reason = n.Reason ∧ o.Message = n.Message) :
    statusWrites (update w p (some c)) = [] ∧ (update w p (some c)).err = none ∧
      persistedAfter w p (update w p (some c)).trace = p ∧
      ((∃ s ∈ p.Status.Conditions, ∀ n ∈ c, n.Type_ ≠ s.Type_) →
        (persistedAfter w p (update w p (some c)).trace).Status.Conditions ≠ c) := by
  have hskip : update w p (some c) = { err := none, trace := [] } := by
    apply update_skip
    rw [updatePrepare_snd]
    obtain ⟨t, ht⟩ := Option.ne_none_iff_exists'.mp htuned
    obtain ⟨r, hr⟩ := Option.ne_none_iff_exists'.mp hruntime
    simp [ht, hr, (conditionsModified_eq_false_iff _ _).mpr hagree]
  rw [hskip]
  refine ⟨by simp [statusWrites], rfl, rfl, ?_⟩
  rintro ⟨s, hs, hne⟩ heq
  simp only [persistedAfter] at heq
  rw [heq] at hs
  exact hne s hs rfl

/-- C13 at a concrete profile: four stored conditions, both names set, and the
empty non-nil candidate; nothing is written and the four conditions stay. -/
theorem update_keeps_omitted_conditions_witness :
    statusWrites (update quietWriter (perfA ⟨GetAvailableConditions 1 "", some "t", some "r"⟩)
        (some [])) = [] ∧
      (update quietWriter (perfA ⟨GetAvailableConditions 1 "", some "t", some "r"⟩)
        (some [])).err = none ∧
      (persistedAfter quietWriter (perfA ⟨GetAvailableConditions 1 "", some "t", some "r"⟩)
        (update quietWriter (perfA ⟨GetAvailableConditions 1 "", some "t", some "r"⟩)
          (some [])).trace).Status.Conditions ≠ [] :=
  have h := update_keeps_omitted_conditions quietWriter
    (perfA ⟨GetAvailableConditions 1 "", some "t", some "r"⟩) [] (by decide) (by decide)
    (by simp)
  ⟨h.1, h.2.1, h.2.2.2 ⟨_, List.mem_cons_self _ _, by simp⟩⟩

end StatusWriter

namespace LLC

/-! ## LLC alignment of a cpuset: claim C12 -/

/-- A cpuset that no cache info holds is not aligned. -/
theorem isCPUSetLLCAligned_eq_false {infos : List CacheInfo} {cpus : CPUSet}
    (h : ∀ info ∈ infos, ¬ cpus ⊆ info.CPUs) : isCPUSetLLCAligned infos cpus = (false, none) := by
  induction infos with
  | nil => rfl
  | cons info rest ih =>
    have hhead := h info (List.mem_cons_self _ _)
    simp only [isCPUSetLLCAligned, hhead, if_false]
    exact ih fun x hx => h x (List.mem_cons_of_mem _ hx)

/-- The layout of `computeLLCLayout` holds caches of level 3 and above only. -/
theorem computeLLCLayout_level (mi : Machine) :
    ∀ info ∈ computeLLCLayout mi, 3 ≤ info.Level := by
  have hnode : ∀ (node : TopologyNode) (caches : List MemoryCache),
      ∀ info ∈ nodeLLCLayout node caches, 3 ≤ info.Level := by
    intro node caches
    induction caches with
    | nil => simp [nodeLLCLayout]
    | cons cache rest ih =>
      intro info hinfo
      by_cases hl : cache.Level < 3
      · simp only [nodeLLCLayout, hl, if_true] at hinfo
        exact ih info hinfo
      · simp only [nodeLLCLayout, hl, if_false, List.mem_cons] at hinfo
        rcases hinfo with rfl | hinfo
        · exact Nat.le_of_not_lt hl
        · exact ih info hinfo
  unfold computeLLCLayout
  induction mi.Nodes with
  | nil => simp [nodesLLCLayout]
  | cons node rest ih =>
    intro info hinfo
    simp only [nodesLLCLayout, List.mem_append] at hinfo
    rcases hinfo with hinfo | hinfo
    · exact hnode node node.Caches info hinfo
    · exact ih info hinfo

/-- When every cache of the layout is of level 3 and the level-3 groups are
equal in size, a cpuset with more CPUs than a group is not aligned. -/
theorem isCPUSetLLCAligned_false_of_level3 (caches : List CacheInfo) (cpus : CPUSet)
    (hlevel : ∀ info ∈ caches, info.Level = 3) (hequal : EqualL3Groups caches)
    (hsize : firstL3GroupSize caches < cpus.card) :
    isCPUSetLLCAligned caches cpus = (false, none) := by
  apply isCPUSetLLCAligned_eq_false
  intro info hinfo hsub
  have hcard : info.CPUs.card = firstL3GroupSize caches := by
    cases caches with
    | nil => cases hinfo
    | cons first rest =>
      have hfirst := hlevel first (List.mem_cons_self _ _)
      simp only [firstL3GroupSize, hfirst, ne_eq, not_true_eq_false, if_false]
      exact hequal info hinfo first (List.mem_cons_self _ _) (hlevel info hinfo) hfirst
  have hle := Finset.card_le_card hsub
  omega

/-- The nearby statement at the machine without a level-4 cache: the cpuset of
twelve CPUs is not aligned. -/
theorem isCPUSetLLCAligned_false_on_L3_machine :
    isCPUSetLLCAligned (machineDataOf machineWithL3Only).Caches twelveCPUs = (false, none) :=
  isCPUSetLLCAligned_false_of_level3 (machineDataOf machineWithL3Only).Caches twelveCPUs
    (by decide) (by unfold EqualL3Groups; decide) (by decide)

/-- C12 fails on the code at a machine with a level-4 cache: the layout of
`computeLLCLayout` keeps that cache, the level-3 groups are equal in size (ten
CPUs each), the cpuset of the CPUs 0-11 has two CPUs more than a level-3 group,
and `isCPUSetLLCAligned` returns `true` with the level-4 cache. -/
theorem isCPUSetLLCAligned_true_beyond_L3_group :
    (machineDataOf machineWithL4).Caches = computeLLCLayout machineWithL4 ∧
      EqualL3Groups (machineDataOf machineWithL4).Caches ∧
      expectedL3GroupSize (machineDataOf machineWithL4) = 10 ∧
      twelveCPUs.card = expectedL3GroupSize (machineDataOf machineWithL4) + 2 ∧
      isCPUSetLLCAligned (machineDataOf machineWithL4).Caches twelveCPUs =
        (true, some { NodeID := 0, Level := 4,
                      CPUs := cpusetFromLogicalProcessors (processorRange 0 20) }) := by
  refine ⟨rfl, ?_, by decide, by decide, by decide⟩
  unfold EqualL3Groups
  decide

end LLC
